import Mathlib

/-!
Shallow embedding of the bencoding decoder in `src/bencoding.py`
(class `Decoder`), together with proofs about its behaviour.

Modelling conventions:
* A Python `bytes` buffer is a `List Nat` of byte values.
* The decoder's mutable fields (`_data`, `_index`, `_char`) become an
  explicit state record `DecState` threaded through the functions.
  `_char` is stored redundantly, exactly as in the source, so that the
  cursor invariant is a genuine theorem rather than true by construction.
* Python exceptions become an `Except DecodeError` result; each distinct
  `raise` site in the source maps to a constructor of `DecodeError`.
  Python's `IndexError` (the unchecked read `self._data[self._index]` in
  `_decode_char`) is modelled by the constructor `indexError`.
* Python's `str.isdigit()` applied to `chr(b)` for a byte `b < 256` is
  true for the ASCII digits 48..57 and also for the Latin-1 characters
  at code points 178, 179 and 185 (superscript two, three and one);
  `pyIsdigit` reproduces this exactly.
* The mutual recursion of `_decode_bencode` / `_decode_dict` /
  `_decode_list` and their `while True` loops is made total with a fuel
  parameter; exhausting the fuel yields the artificial error `fuelOut`.
  The top-level `decode` supplies fuel `3 * length + 3`, which is never
  exhausted on real runs because at most three fuel units are spent per
  input byte consumed.
-/

namespace Bencoding

/-- The `BencodedValue` union from the source: bytes, int, list or dict.
A Python `dict` with `bytes` keys is modelled as an association list in
insertion order, matching Python's ordered-dict semantics. -/
inductive BValue where
  | str (s : List Nat)
  | int (n : Int)
  | list (l : List BValue)
  | dict (d : List (List Nat × BValue))

/-- One constructor per distinct `raise` site of the source (plus the
embedding artifact `fuelOut`).  `emptyInput` is `ValueError("Empty data
provided")`; `expectedChar` is the `_consume` mismatch (it carries the
expected byte, the position, and the byte found, as the message does);
`invalidGrammar` is `ValueError("Given data does not follow bencoding
format")`; `unexpectedEndDict` / `unexpectedEndList` are the
end-of-data errors of the container loops; `negativeZero`,
`leadingZero` and `noDigit` are the lexical integer errors;
`trailingData` is `ValueError("Extra data found after valid
bencoding")`; `indexError` is the Python `IndexError` escaping the
unchecked buffer read in `_decode_char`. -/
inductive DecodeError where
  | emptyInput
  | expectedChar (expected : Nat) (pos : Nat) (got : Option Nat)
  | invalidGrammar
  | unexpectedEndDict
  | unexpectedEndList
  | negativeZero
  | leadingZero
  | noDigit
  | trailingData
  | indexError (pos : Nat)
  | fuelOut
deriving DecidableEq

/-- The decoder's cursor: the fields `_data`, `_index`, `_char` of the
Python `Decoder` object.  `char = some b` models `_char = chr(b)` and
`char = none` models `_char = None`. -/
structure DecState where
  data : List Nat
  index : Nat
  char : Option Nat
deriving DecidableEq

/-- Python `chr(b).isdigit()` for a byte value `b`: true on ASCII
digits and on the Latin-1 superscript digits 178, 179, 185. -/
def pyIsdigit (c : Nat) : Bool :=
  (48 ≤ c && c ≤ 57) || c = 178 || c = 179 || c = 185

/-- The shared tail of `_consume` and `_decode_char`: advance `_index`
by one and re-derive `_char` (the byte at the new index, or `None` at
end of input). -/
def advance (s : DecState) : DecState :=
  { s with index := s.index + 1, char := s.data.get? (s.index + 1) }

/-- `_consume(expected_char)`: if the lookahead matches, advance,
otherwise raise the "Expected ... at position ..." error. -/
def consume (expected : Nat) (s : DecState) : Except DecodeError DecState :=
  if s.char = some expected then .ok (advance s)
  else .error (.expectedChar expected s.index s.char)

/-- `_decode_char`: the unchecked read `self._data[self._index]`
followed by a manual advance.  When `index` is out of range the Python
code raises `IndexError`; there is no bounds check and no
`TruncatedString`-style error. -/
def decode_char (s : DecState) : Except DecodeError (Nat × DecState) :=
  match s.data.get? s.index with
  | some b => .ok (b, advance s)
  | none => .error (.indexError s.index)

/-- The `for _ in range(num)` loop of `_decode_str`: read `n` raw bytes
via `decode_char`, accumulating them in order. -/
def decode_str_chars : Nat → DecState → Except DecodeError (List Nat × DecState)
  | 0, s => .ok ([], s)
  | n + 1, s =>
    match decode_char s with
    | .error e => .error e
    | .ok (b, s1) =>
      match decode_str_chars n s1 with
      | .error e => .error e
      | .ok (bs, s2) => .ok (b :: bs, s2)

/-- `_decode_digit`: compare the lookahead against `"0"`..`"9"`,
consume the matching digit and return its value, else raise the
grammar error.  (The consume always succeeds since the lookahead was
just compared equal to the consumed character.) -/
def decode_digit (s : DecState) : Except DecodeError (Nat × DecState) :=
  match s.char with
  | some c =>
    if 48 ≤ c ∧ c ≤ 57 then
      match consume c s with
      | .error e => .error e
      | .ok s1 => .ok (c - 48, s1)
    else .error .invalidGrammar
  | none => .error .invalidGrammar

/-- The `while self._char and self._char.isdigit()` loop of
`_decode_num`: accumulate digits into the number.  `len` counts the
digits read (Python's growing string `num`), `acc` is its integer
value.  Fuel-recursive; the caller passes enough fuel for the loop to
run to its real exit condition. -/
def decode_num_loop : Nat → Nat → Nat → DecState → Except DecodeError (Nat × Nat × DecState)
  | 0, len, acc, s =>
    match s.char with
    | some c => if pyIsdigit c then .error .fuelOut else .ok (len, acc, s)
    | none => .ok (len, acc, s)
  | fuel + 1, len, acc, s =>
    match s.char with
    | some c =>
      if pyIsdigit c then
        match decode_digit s with
        | .error e => .error e
        | .ok (d, s1) => decode_num_loop fuel (len + 1) (acc * 10 + d) s1
      else .ok (len, acc, s)
    | none => .ok (len, acc, s)

/-- `_decode_num`: a leading `"0"` must be the whole number
(otherwise `LeadingZero`); otherwise read a digit sequence, which must
be non-empty (otherwise the "Expected at least one digit" error). -/
def decode_num (s : DecState) : Except DecodeError (Nat × DecState) :=
  if s.char = some 48 then
    match decode_digit s with
    | .error e => .error e
    | .ok (_, s1) =>
      match s1.char with
      | some c => if pyIsdigit c then .error .leadingZero else .ok (0, s1)
      | none => .ok (0, s1)
  else
    match decode_num_loop (s.data.length - s.index) 0 0 s with
    | .error e => .error e
    | .ok (len, acc, s1) => if len = 0 then .error .noDigit else .ok (acc, s1)

/-- `_decode_snum`: an optional `"-"` sign followed by a number; a
digit lookahead parses a non-negative number, `"-"` first checks for
the forbidden `-0` (`NegativeZero`) and then negates, anything else is
the grammar error. -/
def decode_snum (s : DecState) : Except DecodeError (Int × DecState) :=
  match s.char with
  | some c =>
    if pyIsdigit c then
      match decode_num s with
      | .error e => .error e
      | .ok (n, s1) => .ok ((n : Int), s1)
    else if c = 45 then
      match consume 45 s with
      | .error e => .error e
      | .ok s1 =>
        if s1.char = some 48 then .error .negativeZero
        else
          match decode_num s1 with
          | .error e => .error e
          | .ok (n, s2) => .ok (-(n : Int), s2)
    else .error .invalidGrammar
  | none => .error .invalidGrammar

/-- `_decode_int`: `"i"`, a signed number, `"e"`. -/
def decode_int (s : DecState) : Except DecodeError (Int × DecState) :=
  match consume 105 s with
  | .error e => .error e
  | .ok s1 =>
    match decode_snum s1 with
    | .error e => .error e
    | .ok (v, s2) =>
      match consume 101 s2 with
      | .error e => .error e
      | .ok s3 => .ok (v, s3)

/-- `_decode_str`: a length, the `":"` separator, then that many raw
bytes. -/
def decode_str (s : DecState) : Except DecodeError (List Nat × DecState) :=
  match decode_num s with
  | .error e => .error e
  | .ok (n, s1) =>
    match consume 58 s1 with
    | .error e => .error e
    | .ok s2 => decode_str_chars n s2

/-- Python ordered-dict assignment `dictionary[key] = value`: if the
key is present its value is replaced in place (keeping its original
position), otherwise the pair is appended. -/
def dictInsert (d : List (List Nat × BValue)) (k : List Nat) (v : BValue) :
    List (List Nat × BValue) :=
  match d with
  | [] => [(k, v)]
  | (k1, v1) :: rest =>
    if k1 = k then (k, v) :: rest else (k1, v1) :: dictInsert rest k v

/-- Ordered-dict lookup, used to state properties of `dictInsert`. -/
def dictLookup (d : List (List Nat × BValue)) (k : List Nat) : Option BValue :=
  match d with
  | [] => none
  | (k1, v1) :: rest => if k1 = k then some v1 else dictLookup rest k

mutual

/-- `_decode_bencode`: dispatch on one byte of lookahead — `"d"` for a
dictionary, `"l"` for a list, `"i"` for an integer, a digit (in the
Python `isdigit` sense) for a byte-string, anything else (including end
of input) is the grammar error. -/
def decode_bencode : Nat → DecState → Except DecodeError (BValue × DecState)
  | 0, _ => .error .fuelOut
  | fuel + 1, s =>
    match s.char with
    | some c =>
      if c = 100 then decode_dict fuel s
      else if c = 108 then decode_list fuel s
      else if c = 105 then
        match decode_int s with
        | .error e => .error e
        | .ok (n, s1) => .ok (.int n, s1)
      else if pyIsdigit c then
        match decode_str s with
        | .error e => .error e
        | .ok (bs, s1) => .ok (.str bs, s1)
      else .error .invalidGrammar
    | none => .error .invalidGrammar

/-- `_decode_dict`: consume `"d"`, run the pair loop, consume `"e"`. -/
def decode_dict : Nat → DecState → Except DecodeError (BValue × DecState)
  | 0, s =>
    match consume 100 s with
    | .error e => .error e
    | .ok _ => .error .fuelOut
  | fuel + 1, s =>
    match consume 100 s with
    | .error e => .error e
    | .ok s1 =>
      match decode_dict_loop fuel [] s1 with
      | .error e => .error e
      | .ok (d, s2) =>
        match consume 101 s2 with
        | .error e => .error e
        | .ok s3 => .ok (.dict d, s3)

/-- The `while True` loop of `_decode_dict`: on each entry, end of
input is the "Unexpected end of data while parsing dictionary" error;
otherwise one key (string production) and one value are decoded
unconditionally and recorded, and the loop stops (without consuming)
when the lookahead is `"e"`. -/
def decode_dict_loop : Nat → List (List Nat × BValue) → DecState →
    Except DecodeError (List (List Nat × BValue) × DecState)
  | 0, _, s =>
    if s.char = none then .error .unexpectedEndDict else .error .fuelOut
  | fuel + 1, acc, s =>
    if s.char = none then .error .unexpectedEndDict
    else
      match decode_str s with
      | .error e => .error e
      | .ok (k, s1) =>
        match decode_bencode fuel s1 with
        | .error e => .error e
        | .ok (v, s2) =>
          if s2.char = some 101 then .ok (dictInsert acc k v, s2)
          else decode_dict_loop fuel (dictInsert acc k v) s2

/-- `_decode_list`: consume `"l"`, run the element loop, consume
`"e"`. -/
def decode_list : Nat → DecState → Except DecodeError (BValue × DecState)
  | 0, s =>
    match consume 108 s with
    | .error e => .error e
    | .ok _ => .error .fuelOut
  | fuel + 1, s =>
    match consume 108 s with
    | .error e => .error e
    | .ok s1 =>
      match decode_list_loop fuel [] s1 with
      | .error e => .error e
      | .ok (l, s2) =>
        match consume 101 s2 with
        | .error e => .error e
        | .ok s3 => .ok (.list l, s3)

/-- The `while True` loop of `_decode_list`: same shape as the
dictionary loop with plain elements instead of pairs. -/
def decode_list_loop : Nat → List BValue → DecState →
    Except DecodeError (List BValue × DecState)
  | 0, _, s =>
    if s.char = none then .error .unexpectedEndList else .error .fuelOut
  | fuel + 1, acc, s =>
    if s.char = none then .error .unexpectedEndList
    else
      match decode_bencode fuel s with
      | .error e => .error e
      | .ok (v, s1) =>
        if s1.char = some 101 then .ok (acc ++ [v], s1)
        else decode_list_loop fuel (acc ++ [v]) s1

end

/-- `Decoder.__init__`: reject the empty buffer (`EmptyInput`), else
set `_index = 0` and `_char = chr(data[0])`.  (The `TypeError` branch
for non-`bytes` arguments is unrepresentable here since the input type
is already a byte list.) -/
def mkDecoder (d : List Nat) : Except DecodeError DecState :=
  if d = [] then .error .emptyInput
  else .ok { data := d, index := 0, char := d.head? }

/-- Fuel that is never exhausted: at most three fuel units are spent
per input byte consumed (dispatch, container entry, loop entry), so
three units per byte plus slack always suffices. -/
def fuelFor (d : List Nat) : Nat := 3 * d.length + 3

/-- `Decoder.decode`: build a fresh decoder over the buffer, parse one
top-level value, and raise "Extra data found after valid bencoding"
(`trailingData`) unless the lookahead is end-of-input. -/
def decode (d : List Nat) : Except DecodeError BValue :=
  match mkDecoder d with
  | .error e => .error e
  | .ok s0 =>
    match decode_bencode (fuelFor d) s0 with
    | .error e => .error e
    | .ok (v, s1) =>
      if s1.char = none then .ok v else .error .trailingData

/-- Byte list of an ASCII string, for readable concrete test inputs. -/
def strBytes (s : String) : List Nat := s.data.map Char.toNat

/-- The cursor invariant of the decoder: the index never passes the end
of the buffer, and the stored lookahead `_char` is exactly the byte at
`index` (so it is the sentinel `none` precisely when `index` equals the
buffer length). -/
def WF (s : DecState) : Prop :=
  s.index ≤ s.data.length ∧ s.char = s.data.get? s.index

theorem lt_of_get?_eq_some {l : List Nat} {i b : Nat} (h : l.get? i = some b) :
    i < l.length := by
  by_contra hh
  push_neg at hh
  rw [List.get?_eq_none.mpr hh] at h
  cases h

theorem advance_WF {s : DecState} (h : s.index < s.data.length) : WF (advance s) :=
  ⟨h, rfl⟩

theorem consume_ok {c : Nat} {s s1 : DecState} (h : consume c s = .ok s1) :
    s.char = some c ∧ s1 = advance s := by
  unfold consume at h
  split at h
  · exact ⟨by assumption, by injection h with h; exact h.symm⟩
  · cases h

theorem consume_WF {c : Nat} {s s1 : DecState} (hWF : WF s) (h : consume c s = .ok s1) :
    WF s1 ∧ s1.data = s.data ∧ s1.index = s.index + 1 := by
  obtain ⟨hc, rfl⟩ := consume_ok h
  have hlt : s.index < s.data.length := lt_of_get?_eq_some (hWF.2.symm.trans hc)
  exact ⟨advance_WF hlt, rfl, rfl⟩

theorem decode_char_ok {s s1 : DecState} {b : Nat} (h : decode_char s = .ok (b, s1)) :
    s.data.get? s.index = some b ∧ s1 = advance s := by
  unfold decode_char at h
  split at h
  · next b2 heq =>
      simp only [Except.ok.injEq, Prod.mk.injEq] at h
      exact ⟨h.1 ▸ heq, h.2.symm⟩
  · cases h

theorem decode_char_WF {s s1 : DecState} {b : Nat} (h : decode_char s = .ok (b, s1)) :
    WF s1 ∧ s1.data = s.data ∧ s1.index = s.index + 1 := by
  obtain ⟨hb, rfl⟩ := decode_char_ok h
  exact ⟨advance_WF (lt_of_get?_eq_some hb), rfl, rfl⟩

theorem decode_digit_WF {s s1 : DecState} {d : Nat} (hWF : WF s)
    (h : decode_digit s = .ok (d, s1)) : WF s1 ∧ s1.data = s.data := by
  unfold decode_digit at h
  split at h
  · split at h
    · split at h
      · cases h
      · next heq =>
          simp only [Except.ok.injEq, Prod.mk.injEq] at h
          obtain ⟨hw, hd, _⟩ := And.intro (consume_WF hWF heq) h
          exact h.2 ▸ ⟨hw.1, hw.2.1⟩
    · cases h
  · cases h

theorem decode_str_chars_WF : ∀ {n : Nat} {s s1 : DecState} {bs : List Nat},
    WF s → decode_str_chars n s = .ok (bs, s1) → WF s1 ∧ s1.data = s.data := by
  intro n
  induction n with
  | zero =>
      intro s s1 bs hWF h
      unfold decode_str_chars at h
      simp only [Except.ok.injEq, Prod.mk.injEq] at h
      exact h.2 ▸ ⟨hWF, rfl⟩
  | succ n ih =>
      intro s s1 bs hWF h
      unfold decode_str_chars at h
      split at h
      · cases h
      · next b s2 heq =>
          split at h
          · cases h
          · next bs2 s3 heq2 =>
              simp only [Except.ok.injEq, Prod.mk.injEq] at h
              obtain ⟨hw2, hd2, _⟩ := decode_char_WF heq
              obtain ⟨hw3, hd3⟩ := ih hw2 heq2
              exact h.2 ▸ ⟨hw3, hd3.trans hd2⟩

theorem decode_num_loop_WF : ∀ {fuel len acc : Nat} {s s1 : DecState} {o : Nat × Nat},
    WF s → decode_num_loop fuel len acc s = .ok (o.1, o.2, s1) → WF s1 ∧ s1.data = s.data := by
  intro fuel
  induction fuel with
  | zero =>
      intro len acc s s1 o hWF h
      unfold decode_num_loop at h
      split at h
      · split at h
        · cases h
        · simp only [Except.ok.injEq, Prod.mk.injEq] at h
          exact h.2.2 ▸ ⟨hWF, rfl⟩
      · simp only [Except.ok.injEq, Prod.mk.injEq] at h
        exact h.2.2 ▸ ⟨hWF, rfl⟩
  | succ fuel ih =>
      intro len acc s s1 o hWF h
      unfold decode_num_loop at h
      split at h
      · split at h
        · split at h
          · cases h
          · next d s2 heq =>
              obtain ⟨hw2, hd2⟩ := decode_digit_WF hWF heq
              obtain ⟨hw3, hd3⟩ := ih hw2 h
              exact ⟨hw3, hd3.trans hd2⟩
        · simp only [Except.ok.injEq, Prod.mk.injEq] at h
          exact h.2.2 ▸ ⟨hWF, rfl⟩
      · simp only [Except.ok.injEq, Prod.mk.injEq] at h
        exact h.2.2 ▸ ⟨hWF, rfl⟩

theorem decode_num_WF {s s1 : DecState} {n : Nat} (hWF : WF s)
    (h : decode_num s = .ok (n, s1)) : WF s1 ∧ s1.data = s.data := by
  unfold decode_num at h
  split at h
  · split at h
    · cases h
    · next d s2 heq =>
        obtain ⟨hw2, hd2⟩ := decode_digit_WF hWF heq
        split at h
        · split at h
          · cases h
          · simp only [Except.ok.injEq, Prod.mk.injEq] at h
            exact h.2 ▸ ⟨hw2, hd2⟩
        · simp only [Except.ok.injEq, Prod.mk.injEq] at h
          exact h.2 ▸ ⟨hw2, hd2⟩
  · split at h
    · cases h
    · next len acc s2 heq =>
        obtain ⟨hw2, hd2⟩ :=
          decode_num_loop_WF (o := (len, acc)) hWF heq
        split at h
        · cases h
        · simp only [Except.ok.injEq, Prod.mk.injEq] at h
          exact h.2 ▸ ⟨hw2, hd2⟩

theorem decode_snum_WF {s s1 : DecState} {v : Int} (hWF : WF s)
    (h : decode_snum s = .ok (v, s1)) : WF s1 ∧ s1.data = s.data := by
  unfold decode_snum at h
  split at h
  · split at h
    · split at h
      · cases h
      · next n s2 heq =>
          simp only [Except.ok.injEq, Prod.mk.injEq] at h
          exact h.2 ▸ decode_num_WF hWF heq
    · split at h
      · split at h
        · cases h
        · next s2 heq =>
            obtain ⟨hw2, hd2, _⟩ := consume_WF hWF heq
            split at h
            · cases h
            · split at h
              · cases h
              · next n s3 heq2 =>
                  simp only [Except.ok.injEq, Prod.mk.injEq] at h
                  obtain ⟨hw3, hd3⟩ := decode_num_WF hw2 heq2
                  exact h.2 ▸ ⟨hw3, hd3.trans hd2⟩
      · cases h
  · cases h

theorem decode_int_WF {s s1 : DecState} {v : Int} (hWF : WF s)
    (h : decode_int s = .ok (v, s1)) : WF s1 ∧ s1.data = s.data := by
  unfold decode_int at h
  split at h
  · cases h
  · next s2 heq =>
      obtain ⟨hw2, hd2, _⟩ := consume_WF hWF heq
      split at h
      · cases h
      · next v2 s3 heq2 =>
          obtain ⟨hw3, hd3⟩ := decode_snum_WF hw2 heq2
          split at h
          · cases h
          · next s4 heq3 =>
              obtain ⟨hw4, hd4, _⟩ := consume_WF hw3 heq3
              simp only [Except.ok.injEq, Prod.mk.injEq] at h
              exact h.2 ▸ ⟨hw4, (hd4.trans hd3).trans hd2⟩

theorem decode_str_WF {s s1 : DecState} {bs : List Nat} (hWF : WF s)
    (h : decode_str s = .ok (bs, s1)) : WF s1 ∧ s1.data = s.data := by
  unfold decode_str at h
  split at h
  · cases h
  · next n s2 heq =>
      obtain ⟨hw2, hd2⟩ := decode_num_WF hWF heq
      split at h
      · cases h
      · next s3 heq2 =>
          obtain ⟨hw3, hd3, _⟩ := consume_WF hw2 heq2
          obtain ⟨hw4, hd4⟩ := decode_str_chars_WF hw3 h
          exact ⟨hw4, (hd4.trans hd3).trans hd2⟩

/-- Joint invariant preservation for the mutually recursive value,
dictionary and list decoders: a successful run from a well-formed
cursor ends in a well-formed cursor over the same buffer. -/
theorem parse_WF : ∀ fuel : Nat,
    (∀ s v s1, WF s → decode_bencode fuel s = .ok (v, s1) → WF s1 ∧ s1.data = s.data) ∧
    (∀ s v s1, WF s → decode_dict fuel s = .ok (v, s1) → WF s1 ∧ s1.data = s.data) ∧
    (∀ s v s1, WF s → decode_list fuel s = .ok (v, s1) → WF s1 ∧ s1.data = s.data) ∧
    (∀ acc s d s1, WF s → decode_dict_loop fuel acc s = .ok (d, s1) →
      WF s1 ∧ s1.data = s.data) ∧
    (∀ acc s l s1, WF s → decode_list_loop fuel acc s = .ok (l, s1) →
      WF s1 ∧ s1.data = s.data) := by
  intro fuel
  induction fuel with
  | zero =>
      refine ⟨?_, ?_, ?_, ?_, ?_⟩
      · intro s v s1 _ h; cases h
      · intro s v s1 _ h
        unfold decode_dict at h
        split at h <;> cases h
      · intro s v s1 _ h
        unfold decode_list at h
        split at h <;> cases h
      · intro acc s d s1 _ h
        unfold decode_dict_loop at h
        split at h <;> cases h
      · intro acc s l s1 _ h
        unfold decode_list_loop at h
        split at h <;> cases h
  | succ fuel ih =>
      obtain ⟨ihB, ihD, ihL, ihDL, ihLL⟩ := ih
      refine ⟨?_, ?_, ?_, ?_, ?_⟩
      · intro s v s1 hWF h
        unfold decode_bencode at h
        split at h
        · split at h
          · exact ihD _ _ _ hWF h
          · split at h
            · exact ihL _ _ _ hWF h
            · split at h
              · split at h
                · cases h
                · next n s2 heq2 =>
                    simp only [Except.ok.injEq, Prod.mk.injEq] at h
                    exact h.2 ▸ decode_int_WF hWF heq2
              · split at h
                · split at h
                  · cases h
                  · next bs s2 heq2 =>
                      simp only [Except.ok.injEq, Prod.mk.injEq] at h
                      exact h.2 ▸ decode_str_WF hWF heq2
                · cases h
        · cases h
      · intro s v s1 hWF h
        unfold decode_dict at h
        split at h
        · cases h
        · next s2 heq =>
            obtain ⟨hw2, hd2, _⟩ := consume_WF hWF heq
            split at h
            · cases h
            · next d s3 heq2 =>
                obtain ⟨hw3, hd3⟩ := ihDL _ _ _ _ hw2 heq2
                split at h
                · cases h
                · next s4 heq3 =>
                    obtain ⟨hw4, hd4, _⟩ := consume_WF hw3 heq3
                    simp only [Except.ok.injEq, Prod.mk.injEq] at h
                    exact h.2 ▸ ⟨hw4, (hd4.trans hd3).trans hd2⟩
      · intro s v s1 hWF h
        unfold decode_list at h
        split at h
        · cases h
        · next s2 heq =>
            obtain ⟨hw2, hd2, _⟩ := consume_WF hWF heq
            split at h
            · cases h
            · next l s3 heq2 =>
                obtain ⟨hw3, hd3⟩ := ihLL _ _ _ _ hw2 heq2
                split at h
                · cases h
                · next s4 heq3 =>
                    obtain ⟨hw4, hd4, _⟩ := consume_WF hw3 heq3
                    simp only [Except.ok.injEq, Prod.mk.injEq] at h
                    exact h.2 ▸ ⟨hw4, (hd4.trans hd3).trans hd2⟩
      · intro acc s d s1 hWF h
        unfold decode_dict_loop at h
        split at h
        · cases h
        · split at h
          · cases h
          · next k s2 heq =>
              obtain ⟨hw2, hd2⟩ := decode_str_WF hWF heq
              split at h
              · cases h
              · next v2 s3 heq2 =>
                  obtain ⟨hw3, hd3⟩ := ihB _ _ _ hw2 heq2
                  split at h
                  · simp only [Except.ok.injEq, Prod.mk.injEq] at h
                    exact h.2 ▸ ⟨hw3, hd3.trans hd2⟩
                  · obtain ⟨hw4, hd4⟩ := ihDL _ _ _ _ hw3 h
                    exact ⟨hw4, (hd4.trans hd3).trans hd2⟩
      · intro acc s l s1 hWF h
        unfold decode_list_loop at h
        split at h
        · cases h
        · split at h
          · cases h
          · next v2 s2 heq =>
              obtain ⟨hw2, hd2⟩ := ihB _ _ _ hWF heq
              split at h
              · simp only [Except.ok.injEq, Prod.mk.injEq] at h
                exact h.2 ▸ ⟨hw2, hd2⟩
              · obtain ⟨hw3, hd3⟩ := ihLL _ _ _ _ hw2 h
                exact ⟨hw3, hd3.trans hd2⟩

theorem consume_err {c : Nat} {s : DecState} {e : DecodeError}
    (h : consume c s = .error e) : e ≠ .emptyInput := by
  unfold consume at h
  split at h
  · cases h
  · injection h with h
    subst h
    simp

theorem decode_char_err {s : DecState} {e : DecodeError}
    (h : decode_char s = .error e) : e ≠ .emptyInput := by
  unfold decode_char at h
  split at h
  · cases h
  · injection h with h
    subst h
    simp

theorem decode_digit_err {s : DecState} {e : DecodeError}
    (h : decode_digit s = .error e) : e ≠ .emptyInput := by
  unfold decode_digit at h
  split at h
  · split at h
    · split at h
      · next heq => injection h with h; exact h ▸ consume_err heq
      · cases h
    · injection h with h; subst h; simp
  · injection h with h; subst h; simp

theorem decode_num_loop_err : ∀ {fuel len acc : Nat} {s : DecState} {e : DecodeError},
    decode_num_loop fuel len acc s = .error e → e ≠ .emptyInput := by
  intro fuel
  induction fuel with
  | zero =>
      intro len acc s e h
      unfold decode_num_loop at h
      split at h
      · split at h
        · injection h with h; subst h; simp
        · cases h
      · cases h
  | succ fuel ih =>
      intro len acc s e h
      unfold decode_num_loop at h
      split at h
      · split at h
        · split at h
          · next heq => injection h with h; exact h ▸ decode_digit_err heq
          · exact ih h
        · cases h
      · cases h

theorem decode_num_err {s : DecState} {e : DecodeError}
    (h : decode_num s = .error e) : e ≠ .emptyInput := by
  unfold decode_num at h
  split at h
  · split at h
    · next heq => injection h with h; exact h ▸ decode_digit_err heq
    · split at h
      · split at h
        · injection h with h; subst h; simp
        · cases h
      · cases h
  · split at h
    · next heq => injection h with h; exact h ▸ decode_num_loop_err heq
    · split at h
      · injection h with h; subst h; simp
      · cases h

theorem decode_snum_err {s : DecState} {e : DecodeError}
    (h : decode_snum s = .error e) : e ≠ .emptyInput := by
  unfold decode_snum at h
  split at h
  · split at h
    · split at h
      · next heq => injection h with h; exact h ▸ decode_num_err heq
      · cases h
    · split at h
      · split at h
        · next heq => injection h with h; exact h ▸ consume_err heq
        · split at h
          · injection h with h; subst h; simp
          · split at h
            · next heq => injection h with h; exact h ▸ decode_num_err heq
            · cases h
      · injection h with h; subst h; simp
  · injection h with h; subst h; simp

theorem decode_int_err {s : DecState} {e : DecodeError}
    (h : decode_int s = .error e) : e ≠ .emptyInput := by
  unfold decode_int at h
  split at h
  · next heq => injection h with h; exact h ▸ consume_err heq
  · split at h
    · next heq => injection h with h; exact h ▸ decode_snum_err heq
    · split at h
      · next heq => injection h with h; exact h ▸ consume_err heq
      · cases h

theorem decode_str_chars_err : ∀ {n : Nat} {s : DecState} {e : DecodeError},
    decode_str_chars n s = .error e → e ≠ .emptyInput := by
  intro n
  induction n with
  | zero =>
      intro s e h
      unfold decode_str_chars at h
      cases h
  | succ n ih =>
      intro s e h
      unfold decode_str_chars at h
      split at h
      · next heq => injection h with h; exact h ▸ decode_char_err heq
      · split at h
        · next heq => injection h with h; exact h ▸ ih heq
        · cases h

theorem decode_str_err {s : DecState} {e : DecodeError}
    (h : decode_str s = .error e) : e ≠ .emptyInput := by
  unfold decode_str at h
  split at h
  · next heq => injection h with h; exact h ▸ decode_num_err heq
  · split at h
    · next heq => injection h with h; exact h ▸ consume_err heq
    · exact decode_str_chars_err h

/-- Joint error-shape lemma for the mutually recursive decoders: no
error produced inside the parse is the `emptyInput` error (that error
is raised only by the constructor `mkDecoder`). -/
theorem parse_err : ∀ fuel : Nat,
    (∀ s e, decode_bencode fuel s = .error e → e ≠ .emptyInput) ∧
    (∀ s e, decode_dict fuel s = .error e → e ≠ .emptyInput) ∧
    (∀ s e, decode_list fuel s = .error e → e ≠ .emptyInput) ∧
    (∀ acc s e, decode_dict_loop fuel acc s = .error e → e ≠ .emptyInput) ∧
    (∀ acc s e, decode_list_loop fuel acc s = .error e → e ≠ .emptyInput) := by
  intro fuel
  induction fuel with
  | zero =>
      refine ⟨?_, ?_, ?_, ?_, ?_⟩
      · intro s e h; injection h with h; subst h; simp
      · intro s e h
        unfold decode_dict at h
        split at h
        · next heq => injection h with h; exact h ▸ consume_err heq
        · injection h with h; subst h; simp
      · intro s e h
        unfold decode_list at h
        split at h
        · next heq => injection h with h; exact h ▸ consume_err heq
        · injection h with h; subst h; simp
      · intro acc s e h
        unfold decode_dict_loop at h
        split at h <;> (injection h with h; subst h; simp)
      · intro acc s e h
        unfold decode_list_loop at h
        split at h <;> (injection h with h; subst h; simp)
  | succ fuel ih =>
      obtain ⟨ihB, ihD, ihL, ihDL, ihLL⟩ := ih
      refine ⟨?_, ?_, ?_, ?_, ?_⟩
      · intro s e h
        unfold decode_bencode at h
        split at h
        · split at h
          · exact ihD _ _ h
          · split at h
            · exact ihL _ _ h
            · split at h
              · split at h
                · next heq => injection h with h; exact h ▸ decode_int_err heq
                · cases h
              · split at h
                · split at h
                  · next heq => injection h with h; exact h ▸ decode_str_err heq
                  · cases h
                · injection h with h; subst h; simp
        · injection h with h; subst h; simp
      · intro s e h
        unfold decode_dict at h
        split at h
        · next heq => injection h with h; exact h ▸ consume_err heq
        · split at h
          · next heq => injection h with h; exact h ▸ ihDL _ _ _ heq
          · split at h
            · next heq => injection h with h; exact h ▸ consume_err heq
            · cases h
      · intro s e h
        unfold decode_list at h
        split at h
        · next heq => injection h with h; exact h ▸ consume_err heq
        · split at h
          · next heq => injection h with h; exact h ▸ ihLL _ _ _ heq
          · split at h
            · next heq => injection h with h; exact h ▸ consume_err heq
            · cases h
      · intro acc s e h
        unfold decode_dict_loop at h
        split at h
        · injection h with h; subst h; simp
        · split at h
          · next heq => injection h with h; exact h ▸ decode_str_err heq
          · split at h
            · next heq => injection h with h; exact h ▸ ihB _ _ heq
            · split at h
              · cases h
              · exact ihDL _ _ _ h
      · intro acc s e h
        unfold decode_list_loop at h
        split at h
        · injection h with h; subst h; simp
        · split at h
          · next heq => injection h with h; exact h ▸ ihB _ _ heq
          · split at h
            · cases h
            · exact ihLL _ _ _ h

/-- Only the empty buffer can produce the `emptyInput` error: every
other failure of `decode` comes from a parse step, and no parse step
raises it. -/
theorem decode_ne_emptyInput {d : List Nat} (hd : d ≠ []) :
    decode d ≠ .error .emptyInput := by
  intro h
  unfold decode at h
  split at h
  · next e heq =>
      unfold mkDecoder at heq
      split at heq
      · exact hd (by assumption)
      · cases heq
  · next s0 heq =>
      split at h
      · next e heq2 =>
          injection h with h
          exact (parse_err _).1 _ _ heq2 h
      · split at h
        · cases h
        · injection h with h
          cases h

theorem mkDecoder_ok {d : List Nat} {s0 : DecState} (h : mkDecoder d = .ok s0) :
    WF s0 ∧ s0.data = d ∧ s0.index = 0 := by
  unfold mkDecoder at h
  split at h
  · cases h
  · injection h with h
    subst h
    refine ⟨⟨Nat.zero_le _, ?_⟩, rfl, rfl⟩
    cases d <;> rfl

theorem dictLookup_dictInsert : ∀ (d : List (List Nat × BValue)) (k : List Nat) (v : BValue),
    dictLookup (dictInsert d k v) k = some v := by
  intro d k v
  induction d with
  | nil =>
      unfold dictInsert dictLookup
      rw [if_pos rfl]
  | cons p rest ih =>
      obtain ⟨k1, v1⟩ := p
      unfold dictInsert
      split
      · unfold dictLookup
        rw [if_pos rfl]
      · next hne =>
          unfold dictLookup
          rw [if_neg hne]
          exact ih

/-- C1: the claim says a byte-string whose declared length exceeds the
remaining buffer must fail with the explicit `TruncatedString` error
and never with an unchecked out-of-bounds access.  The code has no
such error and no bounds check: on `b"5:ab"` the read
`self._data[self._index]` in `_decode_char` is executed with the index
(4) equal to the buffer length, raising a bare `IndexError` — the
unchecked out-of-bounds access the claim rules out.  This theorem
evaluates the decoder at that failing input. -/
theorem claim_C1_truncated_string_is_oob :
    decode (strBytes "5:ab") = .error (.indexError 4) := rfl

/-- C2: empty containers are rejected, not decoded as zero-pair /
zero-element values: `decode(b"de")` fails (the key-string decoder
demands a digit and sees `'e'`, the "Expected at least one digit"
grammar error) and `decode(b"le")` fails (the element dispatch sees
`'e'`, the "does not follow bencoding format" grammar error). -/
theorem claim_C2_empty_containers_rejected :
    decode (strBytes "de") = .error .noDigit ∧
    decode (strBytes "le") = .error .invalidGrammar :=
  ⟨rfl, rfl⟩

/-- C3: exact reconstruction of well-formed inputs — `b"4:spam"` gives
the byte string `spam`, `b"i3e"` gives 3, `b"i-3e"` gives -3,
`b"l4:spam4:eggse"` gives the two-element list in order, and
`b"d3:cow3:moo4:spam4:eggse"` gives the dictionary with insertion
order `cow, spam` preserved. -/
theorem claim_C3_exact_reconstruction :
    decode (strBytes "4:spam") = .ok (.str (strBytes "spam")) ∧
    decode (strBytes "i3e") = .ok (.int 3) ∧
    decode (strBytes "i-3e") = .ok (.int (-3)) ∧
    decode (strBytes "l4:spam4:eggse") =
      .ok (.list [.str (strBytes "spam"), .str (strBytes "eggs")]) ∧
    decode (strBytes "d3:cow3:moo4:spam4:eggse") =
      .ok (.dict [(strBytes "cow", .str (strBytes "moo")),
                  (strBytes "spam", .str (strBytes "eggs"))]) :=
  ⟨rfl, rfl, rfl, rfl, rfl⟩

/-- C4: integer and string-length lexical rules — `b"i-0e"` fails with
`NegativeZero`; `b"i03e"` fails with `LeadingZero` while the single
digit zero `b"i0e"` decodes to 0; lengths follow the same digit rules
with no sign, so `b"0:"` is the empty byte string and a length
starting `00` fails with `LeadingZero`; missing digits after `'i'`
(`b"ie"`) or after `'-'` (`b"i-e"`) are grammar errors. -/
theorem claim_C4_integer_lexical_rules :
    decode (strBytes "i-0e") = .error .negativeZero ∧
    decode (strBytes "i03e") = .error .leadingZero ∧
    decode (strBytes "i0e") = .ok (.int 0) ∧
    decode (strBytes "0:") = .ok (.str []) ∧
    decode (strBytes "00:") = .error .leadingZero ∧
    decode (strBytes "ie") = .error .invalidGrammar ∧
    decode (strBytes "i-e") = .error .noDigit :=
  ⟨rfl, rfl, rfl, rfl, rfl, rfl, rfl⟩

/-- C5: on success the whole buffer is consumed (the final cursor sits
at end of input), and whenever the top-level parse succeeds with bytes
left over, `decode` fails with `trailingData`; concretely,
`decode(b"i3e garbage")` fails with `trailingData`. -/
theorem claim_C5_trailing_data :
    (∀ d s0 v s1, mkDecoder d = .ok s0 →
      decode_bencode (fuelFor d) s0 = .ok (v, s1) →
      (decode d = .ok v → s1.index = d.length ∧ s1.char = none) ∧
      (s1.index < d.length → decode d = .error .trailingData)) ∧
    decode (strBytes "i3e garbage") = .error .trailingData := by
  refine ⟨?_, rfl⟩
  intro d s0 v s1 hmk hrun
  obtain ⟨hw0, hd0, _⟩ := mkDecoder_ok hmk
  obtain ⟨hw1, hd1⟩ := (parse_WF (fuelFor d)).1 _ _ _ hw0 hrun
  have hd2 : s1.data = d := hd1.trans hd0
  have hdec : decode d = (if s1.char = none then .ok v else .error .trailingData) := by
    unfold decode
    simp only [hmk, hrun]
  constructor
  · intro hok
    by_cases hc : s1.char = none
    · refine ⟨?_, hc⟩
      have hnone : s1.data.get? s1.index = none := hw1.2.symm.trans hc
      have hle := List.get?_eq_none.mp hnone
      have hge := hw1.1
      rw [hd2] at hle hge
      omega
    · rw [hdec, if_neg hc] at hok
      cases hok
  · intro hlt
    have hc : s1.char ≠ none := by
      rw [hw1.2]
      intro hn
      have := List.get?_eq_none.mp hn
      rw [hd2] at this
      omega
    rw [hdec, if_neg hc]

theorem claim_C5_witness :
    decode (strBytes "i3ex") = .error .trailingData :=
  (claim_C5_trailing_data.1 (strBytes "i3ex")
      ⟨strBytes "i3ex", 0, some 105⟩ (.int 3) ⟨strBytes "i3ex", 3, some 120⟩
      rfl rfl).2 (by decide)

/-- C6: the empty buffer fails with `emptyInput`, and no non-empty
buffer ever fails with `emptyInput` (that error is raised only in the
constructor, before any parsing starts). -/
theorem claim_C6_empty_input :
    decode [] = .error .emptyInput ∧
    ∀ d : List Nat, d ≠ [] → decode d ≠ .error .emptyInput :=
  ⟨rfl, fun _ hd => decode_ne_emptyInput hd⟩

theorem claim_C6_witness :
    ([105, 51, 101] : List Nat) ≠ [] ∧
    decode [105, 51, 101] ≠ .error .emptyInput :=
  ⟨by decide, claim_C6_empty_input.2 [105, 51, 101] (by decide)⟩

/-- C7: reaching end of input at the start of a pair/element iteration
of a dictionary or list loop — before the `'e'` terminator — always
fails with the "unexpected end of data" error of that container, for
any fuel and accumulator; concretely `decode(b"li3e")` and
`decode(b"d3:cow3:moo")` fail that way. -/
theorem claim_C7_unterminated_container :
    (∀ fuel acc s, s.char = none →
      decode_dict_loop fuel acc s = .error .unexpectedEndDict) ∧
    (∀ fuel acc s, s.char = none →
      decode_list_loop fuel acc s = .error .unexpectedEndList) ∧
    decode (strBytes "li3e") = .error .unexpectedEndList ∧
    decode (strBytes "d3:cow3:moo") = .error .unexpectedEndDict := by
  refine ⟨?_, ?_, rfl, rfl⟩
  · intro fuel acc s h
    cases fuel
    · unfold decode_dict_loop
      rw [if_pos h]
    · unfold decode_dict_loop
      rw [if_pos h]
  · intro fuel acc s h
    cases fuel
    · unfold decode_list_loop
      rw [if_pos h]
    · unfold decode_list_loop
      rw [if_pos h]

theorem claim_C7_witness :
    decode_dict_loop 1 [] ⟨[100], 1, none⟩ = .error .unexpectedEndDict ∧
    decode_list_loop 1 [] ⟨[108], 1, none⟩ = .error .unexpectedEndList :=
  ⟨claim_C7_unterminated_container.1 1 [] ⟨[100], 1, none⟩ rfl,
   claim_C7_unterminated_container.2.1 1 [] ⟨[108], 1, none⟩ rfl⟩

/-- C8: the cursor invariant — the decoder starts well-formed (the
lookahead is the byte at `index`, or the sentinel exactly at end of
input), each consumption step (`_consume` and the manual advance in
`_decode_char`) moves `index` forward by exactly one consumed byte and
re-derives a correct lookahead over the unchanged buffer, and a whole
successful parse preserves the invariant. -/
theorem claim_C8_cursor_invariant :
    (∀ d s0, mkDecoder d = .ok s0 → WF s0) ∧
    (∀ c s s1, WF s → consume c s = .ok s1 →
      s1.index = s.index + 1 ∧ s1.data = s.data ∧ WF s1) ∧
    (∀ s b s1, decode_char s = .ok (b, s1) →
      s1.index = s.index + 1 ∧ s1.data = s.data ∧ WF s1) ∧
    (∀ fuel s v s1, WF s → decode_bencode fuel s = .ok (v, s1) →
      WF s1 ∧ s1.data = s.data) :=
  ⟨fun _ _ h => (mkDecoder_ok h).1,
   fun _ _ _ hw h =>
     ⟨(consume_WF hw h).2.2, (consume_WF hw h).2.1, (consume_WF hw h).1⟩,
   fun _ _ _ h =>
     ⟨(decode_char_WF h).2.2, (decode_char_WF h).2.1, (decode_char_WF h).1⟩,
   fun fuel _ _ _ hw h => (parse_WF fuel).1 _ _ _ hw h⟩

theorem claim_C8_witness :
    (⟨[105], 1, none⟩ : DecState).index = (⟨[105], 0, some 105⟩ : DecState).index + 1 ∧
    (⟨[105], 1, none⟩ : DecState).data = (⟨[105], 0, some 105⟩ : DecState).data ∧
    WF ⟨[105], 1, none⟩ :=
  claim_C8_cursor_invariant.2.1 105 ⟨[105], 0, some 105⟩ ⟨[105], 1, none⟩
    ⟨Nat.zero_le _, rfl⟩ rfl

/-- C9: duplicate dictionary keys are not an error: the ordered-dict
assignment makes the later pair overwrite the earlier one, so the last
occurrence wins — concretely `decode(b"d1:a1:b1:a1:ce")` succeeds with
`{b"a": b"c"}`, and in general looking up a just-inserted key yields
the just-inserted value. -/
theorem claim_C9_duplicate_keys_last_wins :
    decode (strBytes "d1:a1:b1:a1:ce") =
      .ok (.dict [(strBytes "a", .str (strBytes "c"))]) ∧
    ∀ (d : List (List Nat × BValue)) (k : List Nat) (v : BValue),
      dictLookup (dictInsert d k v) k = some v :=
  ⟨rfl, dictLookup_dictInsert⟩

/-- C10: `decode` is deterministic and referentially transparent.  In
this embedding the decoder state is created afresh inside `decode` and
threaded explicitly, exactly as each Python call builds a fresh
`Decoder` object; `decode` is therefore a pure function of the buffer
alone, so two calls on the same bytes — including failing calls and
the offsets their errors carry — give identical results, and no other
state exists for a call to affect. -/
theorem claim_C10_deterministic :
    ∀ d1 d2 : List Nat, d1 = d2 → decode d1 = decode d2 := by
  intro d1 d2 h
  rw [h]

theorem claim_C10_witness :
    decode (strBytes "i3e") = decode (strBytes "i3e") :=
  claim_C10_deterministic (strBytes "i3e") (strBytes "i3e") rfl

end Bencoding
